import Mathlib

/-!
Shallow embedding of `src/Logging/ThugLogging.py` (class `ThugLogging`)
from the CZ-NIC/thug repository, together with theorems settling the
specification claims about it.

Modelling conventions:
* Python `None` for a string-valued slot is `Option String`; Python
  truthiness of such a slot (`if x:`) is `pyTruthy` (false for `None`
  and for the empty string), while the distinct check `x is None`
  matches on the `Option` constructor only.
* The registered backend modules (`self.modules.values()`) are a list
  in registration order; a module's duck-typed attribute lookup
  (`getattr(module, name, None)` followed by a truthiness test) is a
  function `ops : String → Option Handler`.
* Side effects on the backends and on the external collaborators
  (URL classifier, certificate fetcher, VirusTotal, HoneyAgent, sample
  classifier, content store) are recorded as an explicit trace of
  `Event` values, in the order the source performs the calls.
* The one genuinely non-terminating construct, the `while final is None`
  loop of `log_redirect`, is given fuel; a result of `none` at every
  fuel value models divergence.
-/

namespace ThugLoggingModel

/-- A bound backend-handler operation, identified opaquely by name. -/
abbrev Handler := String

/-- Raw byte content, as passed around by the logging facade. -/
abbrev Data := List Nat

/-- One registered backend logging module: its configuration name and its
duck-typed operation table (`getattr(module, name, None)`; the `if m:`
truthiness test on the looked-up attribute is folded into `Option`). -/
structure BackendModule where
  name : String
  ops : String → Option Handler

/-- The mutable state of a `ThugLogging` instance that the modelled
operations touch: the registered module list (fixed after `__init_config`,
in registration order) and `methods_cache`. -/
structure LogState where
  modules : List BackendModule
  methods_cache : String → Option (List Handler)

/-- Python truthiness of an optional string: `None` and `""` are falsy. -/
def pyTruthy : Option String → Bool
  | none => false
  | some s => s != ""

/-- How Python's `"%s"` renders an optional string: `None` prints as
the text `None`. -/
def pyStr : Option String → String
  | none => "None"
  | some s => s

/-- `ThugLogging.resolve_method`: return the cached handler list for
`name` if present; otherwise scan every registered module for an
operation named `name`, collect the hits in registration order, cache
and return them.  The returned pair is (result, updated state). -/
def resolve_method (st : LogState) (name : String) : List Handler × LogState :=
  match st.methods_cache name with
  | some ms => (ms, st)
  | none =>
    let methods := st.modules.filterMap (fun m => m.ops name)
    (methods,
     { st with
        methods_cache := fun n => if n = name then some methods else st.methods_cache n })

/-- Running a sequence of further `resolve_method` calls, keeping only the
state (models other lookups happening later in the same session). -/
def resolveAll (st : LogState) (names : List String) : LogState :=
  names.foldl (fun s n => (resolve_method s n).2) st

/-- `ThugLogging.eval_min_length_logging`, the class attribute. -/
def eval_min_length_logging : Nat := 4

/-- `ThugLogging.check_snippet`: `len(s) < self.eval_min_length_logging`. -/
def check_snippet (s : String) : Bool :=
  s.length < eval_min_length_logging

/-- A sample record, restricted to the fields this source file reads:
`sample['type']`, `sample['md5']` and the optional `"raw"` key that
`log_androguard` pops.  Built externally by `SampleLogging.build_sample`. -/
structure Sample where
  type : String
  md5 : String
  raw : Option Data
deriving DecidableEq

/-- One observable call made by the modelled operations: either a
broadcast to a resolved backend handler, or a call to one of the external
collaborators. -/
inductive Event where
  | behaviorWarn (description : String)
  | connection (source destination : Option String) (method : String)
  | classifyUrl (url : Option String)
  | fetchCertificate (url : Option String)
  | buildSample (data : Option Data) (url : Option String)
  | fileHandler (h : Handler) (sample : Sample) (url : Option String) (params : Option String)
  | virusTotalAnalyze (data : Option Data) (sample : Sample)
  | honeyAgentAnalyze (data : Option Data) (sample : Sample) (params : Option String)
  | sampleClassify (data : Option Data) (md5 : String)
  | snippetHandler (h : Handler) (snippet language relationship method : String)
  | storeContent (dirname filename : String) (report : Data)
  | moduleHandler (h : Handler) (sample : Sample) (report : Data)
deriving DecidableEq

/-- `ThugLogging.add_code_snippet`: when `check` is set and the snippet is
below the minimum length, return at once (no resolution, no broadcast);
otherwise broadcast the snippet to every resolved handler. -/
def add_code_snippet (st : LogState) (snippet language relationship method : String)
    (check : Bool) : List Event × LogState :=
  if check && check_snippet snippet then ([], st)
  else
    let (ms, st') := resolve_method st "add_code_snippet"
    (ms.map (fun m => Event.snippetHandler m snippet language relationship method), st')

/-- `ThugLogging._ThugLogging__log_file` (the private `__log_file`): broadcast
a copy of the sample to every `log_file` handler, send the data to
VirusTotal, to HoneyAgent when the sample type is `JAR`, and to the sample
classifier, then return the sample. -/
def log_file_impl (st : LogState) (sample : Sample) (data : Option Data)
    (url : Option String) (params : Option String) : Sample × LogState × List Event :=
  let (ms, st') := resolve_method st "log_file"
  (sample, st',
    ms.map (fun m => Event.fileHandler m sample url params)
      ++ [Event.virusTotalAnalyze data sample]
      ++ (if sample.type = "JAR" then [Event.honeyAgentAnalyze data sample params] else [])
      ++ [Event.sampleClassify data sample.md5])

/-- `ThugLogging.log_file`: ask the external sample builder for a sample;
if it yields none, return `None` at once, otherwise delegate to
`__log_file`.  The builder is passed in as the external collaborator. -/
def log_file (build_sample : Option Data → Option String → Option Sample)
    (st : LogState) (data : Option Data) (url : Option String) (params : Option String) :
    Option Sample × LogState × List Event :=
  match build_sample data url with
  | none => (none, st, [Event.buildSample data url])
  | some sample =>
    let (s, st', evs) := log_file_impl st sample data url params
    (some s, st', Event.buildSample data url :: evs)

/-- `ThugLogging.log_analysis_module`: store the report as
`<md5>.<format>` under `dirname`, then broadcast `(sample, report)` to
every handler named `log_<module>`. -/
def log_analysis_module (st : LogState) (dirname : String) (sample : Sample)
    (report : Data) (module : String) (format : String) : LogState × List Event :=
  let filename := sample.md5 ++ "." ++ format
  let method := "log_" ++ module
  let (ms, st') := resolve_method st method
  (st', Event.storeContent dirname filename report
          :: ms.map (fun m => Event.moduleHandler m sample report))

/-- `ThugLogging.log_androguard`: `self.__log_file(sample, sample.pop("raw", None))`
followed by `log_analysis_module(..., "androguard", "txt")`.  Python pops
the `"raw"` key from the sample dict in place before `__log_file` receives
the dict, so both calls see the raw-stripped sample; the mutated sample is
returned here to model the in-place update of the caller's record. -/
def log_androguard (st : LogState) (dirname : String) (sample : Sample)
    (report : Data) : Sample × LogState × List Event :=
  let raw := sample.raw
  let sample' : Sample := { sample with raw := none }
  let (_, st', evs1) := log_file_impl st sample' raw none none
  let (st'', evs2) := log_analysis_module st' dirname sample' report "androguard" "txt"
  (sample', st'', evs1 ++ evs2)

/-- One recorded intermediate response of a redirect chain, restricted to
the fields `log_redirect` reads: `h.url`, `h.status_code` and the header
map queried with `h.headers.get('location', None)`. -/
structure Hop where
  url : Option String
  status_code : Nat
  headers : List (String × String)
deriving DecidableEq

/-- The response object handed to `log_redirect`: its own `url` and its
`history` of prior hops, oldest first. -/
structure HttpResponse where
  url : Option String
  history : List Hop
deriving DecidableEq

/-- `headers.get(key, None)` over the modelled header map. -/
def getHeader (headers : List (String × String)) (key : String) : Option String :=
  (headers.find? (fun p => p.1 == key)).map Prod.snd

/-- One execution of the body `for h in reversed(response.history): final = h.url`:
each iteration overwrites `final`, so the pass leaves `final` holding the
url of the last hop iterated (the oldest hop), or the initial value when
the history is empty. -/
def scanPass (final : Option String) (history : List Hop) : Option String :=
  history.reverse.foldl (fun _ h => h.url) final

/-- The `while final is None:` loop of `log_redirect`, fuel-indexed:
`some final` is the value `final` holds when the loop exits, `none` means
the loop was still running when the fuel ran out. -/
def scanFinal (fuel : Nat) (final : Option String) (history : List Hop) :
    Option (Option String) :=
  match fuel, final with
  | _, some u => some (some u)
  | 0, none => none
  | Nat.succ fuel, none => scanFinal fuel (scanPass none history) history

/-- The behavior-warning text `log_redirect` composes for one hop. -/
def redirectWarnMsg (h : Hop) (location : Option String) : String :=
  "[HTTP Redirection (Status: " ++ toString h.status_code
    ++ ")] Content-Location: " ++ pyStr h.url
    ++ " --> Location: " ++ pyStr location

/-- The calls `log_redirect` makes for one hop of the history, in source
order: the behavior warning, the connection edge, the URL classification
and the certificate fetch. -/
def hopEvents (h : Hop) : List Event :=
  let location := getHeader h.headers "location"
  [Event.behaviorWarn (redirectWarnMsg h location),
   Event.connection h.url location "http-redirect",
   Event.classifyUrl h.url,
   Event.fetchCertificate h.url]

/-- `ThugLogging.log_redirect`.  A falsy (`None`) response returns at once.
With no history, the response url is classified and certificate-fetched
only when truthy, and `None` is returned.  With history, `final` starts as
`response.url`, the `while final is None` loop reruns the backward scan
until `final` is not `None` (fuel-indexed; outer `none` means divergence),
then each hop emits its warning/connection/classify/fetch calls and the
final url is classified, certificate-fetched and returned. -/
def log_redirect (fuel : Nat) (response : Option HttpResponse) :
    Option (Option String × List Event) :=
  match response with
  | none => some (none, [])
  | some r =>
    match r.history with
    | [] =>
      if pyTruthy r.url then
        some (none, [Event.classifyUrl r.url, Event.fetchCertificate r.url])
      else
        some (none, [])
    | _ :: _ =>
      match scanFinal fuel r.url r.history with
      | none => none
      | some final =>
        some (final,
          r.history.flatMap hopEvents
            ++ [Event.classifyUrl final, Event.fetchCertificate final])

/-- An `OSError`, reduced to its `errno`. -/
structure OSError where
  errno : Nat
deriving DecidableEq

/-- `errno.EEXIST`. -/
def eEEXIST : Nat := 17

/-- The filesystem as this module observes it: the set of directories that
exist and the files written so far. -/
structure FS where
  dirs : List String
  files : List (String × Data)
deriving DecidableEq

/-- The behaviour of `os.makedirs(dirname)` on the modelled filesystem:
raise `OSError(EEXIST)` when the directory already exists, otherwise
create it. -/
def os_makedirs (fs : FS) (dirname : String) : Except OSError FS :=
  if dirname ∈ fs.dirs then Except.error ⟨eEEXIST⟩
  else Except.ok { fs with dirs := dirname :: fs.dirs }

/-- `os.path.join(dirname, filename)` for the plain relative case used here. -/
def path_join (dirname filename : String) : String :=
  dirname ++ "/" ++ filename

/-- Overwrite (or create) the file `fname` with `content`. -/
def writeFile (files : List (String × Data)) (fname : String) (content : Data) :
    List (String × Data) :=
  (fname, content) :: files.filter (fun p => p.1 != fname)

/-- The tail of `store_content` after directory creation: open
`dirname/filename` for binary writing, write the content, return the path. -/
def store_write (fs : FS) (dirname filename : String) (content : Data) :
    Option String × FS :=
  let fname := path_join dirname filename
  (some fname, { fs with files := writeFile fs.files fname content })

/-- `ThugLogging.store_content`: return `None` at once when file logging is
disabled; otherwise run `os.makedirs(dirname)` (passed in as `mkdirs` so a
faulting filesystem can be modelled), swallow an `OSError` whose errno is
`EEXIST`, re-raise any other `OSError`, then write the content to
`dirname/filename` and return that path. -/
def store_content (file_logging : Bool) (mkdirs : FS → String → Except OSError FS)
    (fs : FS) (dirname filename : String) (content : Data) :
    Except OSError (Option String × FS) :=
  if !file_logging then Except.ok (none, fs)
  else
    match mkdirs fs dirname with
    | Except.ok fs' => Except.ok (store_write fs' dirname filename content)
    | Except.error e =>
      if e.errno = eEEXIST then Except.ok (store_write fs dirname filename content)
      else Except.error e

/-- Number of behavior warnings in a trace. -/
def numBehaviorWarns (tr : List Event) : Nat :=
  (tr.filter (fun e => match e with | Event.behaviorWarn _ => true | _ => false)).length

/-- The connection edges of a trace, in order, as (source, destination, method). -/
def connectionsOf (tr : List Event) : List (Option String × Option String × String) :=
  tr.filterMap (fun e => match e with
    | Event.connection s d m => some (s, d, m)
    | _ => none)

/-- The urls sent to the URL classifier, in order. -/
def classifiedUrls (tr : List Event) : List (Option String) :=
  tr.filterMap (fun e => match e with
    | Event.classifyUrl u => some u
    | _ => none)

/-- The urls whose TLS certificate is fetched, in order. -/
def certificateUrls (tr : List Event) : List (Option String) :=
  tr.filterMap (fun e => match e with
    | Event.fetchCertificate u => some u
    | _ => none)

/-- Whether an event is a backend-handler broadcast or a call to one of the
external analysis collaborators (scan, dynamic execution, classification). -/
def isBackendOrAnalysisCall : Event → Bool
  | Event.fileHandler .. => true
  | Event.snippetHandler .. => true
  | Event.moduleHandler .. => true
  | Event.virusTotalAnalyze .. => true
  | Event.honeyAgentAnalyze .. => true
  | Event.sampleClassify .. => true
  | _ => false

section HelperLemmas

/-- `resolve_method` never changes the registered module list. -/
theorem resolve_method_modules (st : LogState) (n : String) :
    ((resolve_method st n).2).modules = st.modules := by
  unfold resolve_method
  cases st.methods_cache n <;> rfl

/-- `resolve_method` preserves every existing cache entry. -/
theorem resolve_method_cache_preserved (st : LogState) (n name : String)
    (ms : List Handler) (h : st.methods_cache name = some ms) :
    ((resolve_method st n).2).methods_cache name = some ms := by
  unfold resolve_method
  cases hc : st.methods_cache n with
  | some l => simpa using h
  | none =>
    simp only []
    by_cases hn : name = n
    · subst hn; rw [h] at hc; cases hc
    · simpa [hn] using h

/-- A `resolve_method` call that hits the cache returns the cached list
and leaves the state untouched. -/
theorem resolve_method_hit (st : LogState) (name : String) (ms : List Handler)
    (h : st.methods_cache name = some ms) : resolve_method st name = (ms, st) := by
  unfold resolve_method
  rw [h]

/-- `resolveAll` preserves every existing cache entry. -/
theorem resolveAll_cache_preserved (names : List String) (st : LogState)
    (name : String) (ms : List Handler) (h : st.methods_cache name = some ms) :
    (resolveAll st names).methods_cache name = some ms := by
  induction names generalizing st with
  | nil => simpa [resolveAll] using h
  | cons n ns ih =>
    simp only [resolveAll, List.foldl_cons]
    exact ih _ (resolve_method_cache_preserved st n name ms h)

end HelperLemmas

/-- C2.  For every event name, `resolve_method` on a session that has not
yet looked the name up returns exactly the operations of the registered
modules that implement that name, in registration order; and after that
first call, any sequence of later `resolve_method` calls leaves the cached
entry intact, so a repeated call returns the very same list from the cache. -/
theorem resolve_method_memoized (st : LogState) (name : String) (later : List String)
    (hfresh : st.methods_cache name = none) :
    (resolve_method st name).1 = st.modules.filterMap (fun m => m.ops name) ∧
    (resolve_method (resolveAll (resolve_method st name).2 later) name).1
      = (resolve_method st name).1 := by
  have hcache : ((resolve_method st name).2).methods_cache name
      = some (st.modules.filterMap (fun m => m.ops name)) := by
    unfold resolve_method
    rw [hfresh]
    simp
  have h1 : (resolve_method st name).1 = st.modules.filterMap (fun m => m.ops name) := by
    unfold resolve_method
    rw [hfresh]
  refine ⟨h1, ?_⟩
  have hall := resolveAll_cache_preserved later (resolve_method st name).2 name _ hcache
  rw [resolve_method_hit _ _ _ hall, h1]

/-- A two-module session used to instantiate the theorems on concrete data. -/
def modA : BackendModule :=
  ⟨"modA", fun n => if n = "set_url" then some "modA.set_url" else none⟩

/-- A second concrete backend module. -/
def modB : BackendModule :=
  ⟨"modB", fun n =>
    if n = "set_url" then some "modB.set_url"
    else if n = "log_file" then some "modB.log_file" else none⟩

/-- A fresh session state holding the two concrete modules and an empty cache. -/
def st0 : LogState := ⟨[modA, modB], fun _ => none⟩

/-- Witness for C2: instantiating the memoization theorem on the concrete
two-module session, with a later lookup of a different name in between. -/
theorem resolve_method_memoized_app :
    (resolve_method st0 "set_url").1 = st0.modules.filterMap (fun m => m.ops "set_url") ∧
    (resolve_method (resolveAll (resolve_method st0 "set_url").2 ["log_file"]) "set_url").1
      = (resolve_method st0 "set_url").1 :=
  resolve_method_memoized st0 "set_url" ["log_file"] rfl

/-- C7.  `add_code_snippet` with `check` set drops any snippet shorter than
4 units without touching any backend handler (and without even resolving
the handler list), while `check = false` always broadcasts the snippet to
every resolved `add_code_snippet` handler, whatever its length. -/
theorem add_code_snippet_check_spec (st : LogState)
    (snippet language relationship method : String) :
    (snippet.length < 4 →
      add_code_snippet st snippet language relationship method true = ([], st)) ∧
    add_code_snippet st snippet language relationship method false =
      ((resolve_method st "add_code_snippet").1.map
        (fun m => Event.snippetHandler m snippet language relationship method),
       (resolve_method st "add_code_snippet").2) := by
  constructor
  · intro hlen
    unfold add_code_snippet
    have : check_snippet snippet = true := by
      unfold check_snippet eval_min_length_logging
      exact decide_eq_true hlen
    simp [this]
  · unfold add_code_snippet
    simp

/-- Witness for C7: the two-character snippet `ok` is silently dropped when
`check` is set, and is still broadcast when `check` is off. -/
theorem add_code_snippet_check_spec_app :
    add_code_snippet st0 "ok" "javascript" "eval argument" "Dynamic Analysis" true
      = ([], st0) ∧
    add_code_snippet st0 "ok" "javascript" "eval argument" "Dynamic Analysis" false =
      ((resolve_method st0 "add_code_snippet").1.map
        (fun m => Event.snippetHandler m "ok" "javascript" "eval argument" "Dynamic Analysis"),
       (resolve_method st0 "add_code_snippet").2) :=
  ⟨(add_code_snippet_check_spec st0 "ok" "javascript" "eval argument" "Dynamic Analysis").1
      (by decide),
   (add_code_snippet_check_spec st0 "ok" "javascript" "eval argument" "Dynamic Analysis").2⟩

section RedirectHelperLemmas

/-- A scan that starts with a non-`None` `final` exits at once with it. -/
theorem scanFinal_some (fuel : Nat) (u : String) (hs : List Hop) :
    scanFinal fuel (some u) hs = some (some u) := by
  cases fuel <;> rfl

/-- The per-hop event block contributes one behavior warning. -/
theorem numBehaviorWarns_flatMap (hs : List Hop) :
    numBehaviorWarns (hs.flatMap hopEvents) = hs.length := by
  induction hs with
  | nil => rfl
  | cons h t ih =>
    simp only [List.flatMap_cons, numBehaviorWarns, List.filter_append, List.length_append] at *
    rw [ih]
    show 1 + t.length = t.length + 1
    omega

/-- The per-hop event blocks contribute, in order, one connection edge per
hop, from the hop url to its location header, with method http-redirect. -/
theorem connectionsOf_flatMap (hs : List Hop) :
    connectionsOf (hs.flatMap hopEvents)
      = hs.map (fun h => (h.url, getHeader h.headers "location", "http-redirect")) := by
  induction hs with
  | nil => rfl
  | cons h t ih =>
    simp only [List.flatMap_cons, connectionsOf, List.filterMap_append, List.map_cons] at *
    rw [ih]
    rfl

/-- The per-hop event blocks classify, in order, exactly the hop urls. -/
theorem classifiedUrls_flatMap (hs : List Hop) :
    classifiedUrls (hs.flatMap hopEvents) = hs.map (fun h => h.url) := by
  induction hs with
  | nil => rfl
  | cons h t ih =>
    simp only [List.flatMap_cons, classifiedUrls, List.filterMap_append, List.map_cons] at *
    rw [ih]
    rfl

/-- The per-hop event blocks fetch, in order, the certificates of exactly
the hop urls. -/
theorem certificateUrls_flatMap (hs : List Hop) :
    certificateUrls (hs.flatMap hopEvents) = hs.map (fun h => h.url) := by
  induction hs with
  | nil => rfl
  | cons h t ih =>
    simp only [List.flatMap_cons, certificateUrls, List.filterMap_append, List.map_cons] at *
    rw [ih]
    rfl

end RedirectHelperLemmas

/-- C3.  For a response with a non-empty own url and at least one hop,
`log_redirect` returns that url; its trace holds one behavior warning per
hop, one http-redirect connection edge per hop from the hop url to the
hop's location header (hops oldest to newest), and classifies and
certificate-fetches every hop url followed by the final url — N warnings,
N edges and N+1 classify/fetch pairs for N hops. -/
theorem log_redirect_resolved_url (fuel : Nat) (r : HttpResponse) (u : String)
    (hu : r.url = some u) (hne : u ≠ "") (hh : r.history ≠ []) :
    ∃ tr,
      log_redirect fuel (some r) = some (some u, tr) ∧
      numBehaviorWarns tr = r.history.length ∧
      connectionsOf tr
        = r.history.map (fun h => (h.url, getHeader h.headers "location", "http-redirect")) ∧
      classifiedUrls tr = r.history.map (fun h => h.url) ++ [some u] ∧
      certificateUrls tr = r.history.map (fun h => h.url) ++ [some u] := by
  obtain ⟨ru, hist⟩ := r
  simp only at hu
  subst hu
  cases hist with
  | nil => exact absurd rfl hh
  | cons h t =>
    refine ⟨(h :: t).flatMap hopEvents
        ++ [Event.classifyUrl (some u), Event.fetchCertificate (some u)],
      ?_, ?_, ?_, ?_, ?_⟩
    · simp [log_redirect, scanFinal_some]
    · simp only [numBehaviorWarns, List.filter_append, List.length_append]
      have := numBehaviorWarns_flatMap (h :: t)
      simp only [numBehaviorWarns] at this
      rw [this]
      rfl
    · simp only [connectionsOf, List.filterMap_append]
      have := connectionsOf_flatMap (h :: t)
      simp only [connectionsOf] at this
      rw [this]
      simp
    · simp only [classifiedUrls, List.filterMap_append]
      have := classifiedUrls_flatMap (h :: t)
      simp only [classifiedUrls] at this
      rw [this]
      rfl
    · simp only [certificateUrls, List.filterMap_append]
      have := certificateUrls_flatMap (h :: t)
      simp only [certificateUrls] at this
      rw [this]
      rfl

/-- The hop A with status 301 redirecting to B. -/
def hopA : Hop :=
  { url := some "http://a/", status_code := 301, headers := [("location", "http://b/")] }

/-- The hop B with status 302 redirecting to C. -/
def hopB : Hop :=
  { url := some "http://b/", status_code := 302, headers := [("location", "http://c/")] }

/-- A response with hops A then B terminating at its own url C. -/
def respABC : HttpResponse := { url := some "http://c/", history := [hopA, hopB] }

/-- Witness for C3: the two-hop chain A then B terminating at response url C. -/
theorem log_redirect_resolved_url_app :
    ∃ tr,
      log_redirect 5 (some respABC) = some (some "http://c/", tr) ∧
      numBehaviorWarns tr = 2 ∧
      connectionsOf tr
        = [(some "http://a/", some "http://b/", "http-redirect"),
           (some "http://b/", some "http://c/", "http-redirect")] ∧
      classifiedUrls tr = [some "http://a/", some "http://b/", some "http://c/"] ∧
      certificateUrls tr = [some "http://a/", some "http://b/", some "http://c/"] := by
  have h := log_redirect_resolved_url 5 respABC "http://c/" rfl (by decide) (by decide)
  obtain ⟨tr, h1, h2, h3, h4, h5⟩ := h
  exact ⟨tr, h1, by rw [h2]; rfl, by rw [h3]; rfl, by rw [h4]; rfl, by rw [h5]; rfl⟩

/-- C5 (amended).  With no recorded hops, `log_redirect` returns `None`;
it classifies and certificate-fetches the response's own url exactly once
when that url is truthy (defined and non-empty), and performs no call at
all when the url is `None` or empty. -/
theorem log_redirect_no_history (fuel : Nat) (r : HttpResponse)
    (h : r.history = []) :
    log_redirect fuel (some r) =
      some (none,
        if pyTruthy r.url then [Event.classifyUrl r.url, Event.fetchCertificate r.url]
        else []) := by
  obtain ⟨ru, hist⟩ := r
  simp only at h
  subst h
  by_cases htr : pyTruthy ru <;> simp [log_redirect, htr]

/-- Witness for C5: a hop-free response with a truthy url yields exactly
one classify call and one certificate fetch on that url. -/
theorem log_redirect_no_history_app :
    log_redirect 1 (some { url := some "http://a/", history := [] }) =
      some (none,
        if pyTruthy (some "http://a/") then
          [Event.classifyUrl (some "http://a/"), Event.fetchCertificate (some "http://a/")]
        else []) :=
  log_redirect_no_history 1 { url := some "http://a/", history := [] } rfl

/-- Counterexample for C5 as stated: a response with zero hops and url
`None` produces an empty trace — zero classify/certificate pairs, not the
claimed exactly one pair on the response's own url. -/
theorem log_redirect_zero_hops_falsy_url :
    log_redirect 1 (some { url := none, history := [] }) = some (none, []) ∧
    (classifiedUrls ([] : List Event)).length ≠ 1 ∧
    (certificateUrls ([] : List Event)).length ≠ 1 :=
  ⟨rfl, by decide, by decide⟩

/-- A hop whose url is `None`, as recorded in a malformed history. -/
def hopEmpty : Hop :=
  { url := none, status_code := 302, headers := [("location", "http://b/")] }

/-- A response whose own url and single hop url are all `None`. -/
def respAllEmpty : HttpResponse := { url := none, history := [hopEmpty] }

/-- C1.  On a response whose own url and every hop url are undefined, the
`while final is None` loop of `log_redirect` never terminates: every pass
of the backward scan leaves `final` at `None`, so at every fuel bound the
modelled run is still looping (result `none`).  This contradicts the
claimed guarantee that the scan is bounded to one pass and ends with the
final url left undefined. -/
theorem log_redirect_all_empty_diverges :
    ∀ fuel : Nat, log_redirect fuel (some respAllEmpty) = none := by
  intro fuel
  induction fuel with
  | zero => rfl
  | succ n ih =>
    have h : log_redirect (n + 1) (some respAllEmpty)
        = log_redirect n (some respAllEmpty) := rfl
    rw [h]
    exact ih

/-- A hop history of two hops with defined urls A (older) then B (newer). -/
def respEmptyUrl : HttpResponse :=
  { url := none,
    history := [{ url := some "http://a/", status_code := 301,
                  headers := [("location", "http://b/")] },
                { url := some "http://b/", status_code := 302,
                  headers := [("location", "http://c/")] }] }

/-- C4.  On a response with url `None` and hops A (older) and B (newer),
both with defined urls, `log_redirect` resolves the final url to the
OLDEST hop's url A: the backward scan overwrites `final` on every
iteration without breaking, so the last overwrite wins.  The claimed
result — the most recent non-empty hop url B — differs. -/
theorem log_redirect_takes_oldest_hop :
    (log_redirect 1 (some respEmptyUrl)).map Prod.fst = some (some "http://a/") ∧
    (some "http://a/" : Option String) ≠ some "http://b/" :=
  ⟨rfl, by decide⟩

/-- C6.  When the sample builder yields no sample, `log_file` returns
`None` with the session state untouched, and its trace holds only the
builder call itself: no backend-handler broadcast and no call to the
scan, dynamic-execution or classification collaborators. -/
theorem log_file_unbuildable (build_sample : Option Data → Option String → Option Sample)
    (st : LogState) (data : Option Data) (url : Option String) (params : Option String)
    (h : build_sample data url = none) :
    log_file build_sample st data url params = (none, st, [Event.buildSample data url]) ∧
    ((log_file build_sample st data url params).2.2.filter isBackendOrAnalysisCall) = [] := by
  have h1 : log_file build_sample st data url params
      = (none, st, [Event.buildSample data url]) := by
    unfold log_file
    rw [h]
  exact ⟨h1, by rw [h1]; rfl⟩

/-- Witness for C6: a builder that recognizes nothing makes `log_file` a
no-op beyond the builder call. -/
theorem log_file_unbuildable_app :
    log_file (fun _ _ => none) st0 (some [0, 1]) (some "http://a/") none
      = (none, st0, [Event.buildSample (some [0, 1]) (some "http://a/")]) ∧
    ((log_file (fun _ _ => none) st0 (some [0, 1]) (some "http://a/") none).2.2.filter
      isBackendOrAnalysisCall) = [] :=
  log_file_unbuildable (fun _ _ => none) st0 (some [0, 1]) (some "http://a/") none rfl

/-- With file logging enabled and the real `os.makedirs` behaviour,
`store_content` always succeeds and hands back the written state: the
directory is reused when it exists (the EEXIST error is swallowed) and
created otherwise. -/
theorem store_content_true_eq (fs : FS) (dirname filename : String) (content : Data) :
    store_content true os_makedirs fs dirname filename content
      = Except.ok (store_write
          (if dirname ∈ fs.dirs then fs else { fs with dirs := dirname :: fs.dirs })
          dirname filename content) := by
  unfold store_content os_makedirs
  by_cases hmem : dirname ∈ fs.dirs <;> simp [hmem, eEEXIST]

/-- C8.  Two consecutive `store_content` calls with the same directory both
succeed (the second directory creation fails with EEXIST, which is
swallowed), while a directory-creation fault with any errno other than
EEXIST propagates to the caller unchanged. -/
theorem store_content_same_dir_twice_other_faults_raise (fs : FS)
    (dirname f1 f2 : String) (c1 c2 : Data)
    (mkdirs : FS → String → Except OSError FS) (e : OSError)
    (hmk : mkdirs fs dirname = Except.error e) (hne : e.errno ≠ eEEXIST) :
    (∃ r1, store_content true os_makedirs fs dirname f1 c1 = Except.ok r1 ∧
       ∃ r2, store_content true os_makedirs r1.2 dirname f2 c2 = Except.ok r2) ∧
    store_content true mkdirs fs dirname f1 c1 = Except.error e := by
  constructor
  · refine ⟨_, store_content_true_eq fs dirname f1 c1, ?_⟩
    exact ⟨_, store_content_true_eq _ dirname f2 c2⟩
  · simp [store_content, hmk, hne]

/-- Witness for C8: storing twice under `logdir` on an empty filesystem
succeeds both times, and a permission fault (errno 13) is re-raised. -/
theorem store_content_same_dir_twice_other_faults_raise_app :
    (∃ r1, store_content true os_makedirs { dirs := [], files := [] } "logdir" "a.json" [0]
        = Except.ok r1 ∧
       ∃ r2, store_content true os_makedirs r1.2 "logdir" "b.json" [1] = Except.ok r2) ∧
    store_content true (fun _ _ => Except.error ⟨13⟩) { dirs := [], files := [] }
      "logdir" "a.json" [0] = Except.error ⟨13⟩ :=
  store_content_same_dir_twice_other_faults_raise { dirs := [], files := [] }
    "logdir" "a.json" "b.json" [0] [1] (fun _ _ => Except.error ⟨13⟩) ⟨13⟩ rfl (by decide)

/-- Counterexample for C9 as stated: with file logging disabled,
`store_content` returns `None` instead of the full path and leaves the
filesystem untouched, so the unconditional claim fails. -/
theorem store_content_disabled_no_path :
    store_content false os_makedirs { dirs := [], files := [] } "d" "f" [0]
      = Except.ok (none, { dirs := [], files := [] }) ∧
    (none : Option String) ≠ some (path_join "d" "f") :=
  ⟨rfl, by decide⟩

/-- C9 (amended).  With file logging enabled, `store_content` creates the
directory when absent (and keeps it when present), writes the content to
`dirname/filename`, and returns that full path. -/
theorem store_content_enabled_spec (fs : FS) (dirname filename : String) (content : Data) :
    ∃ fsOut,
      store_content true os_makedirs fs dirname filename content
        = Except.ok (some (path_join dirname filename), fsOut) ∧
      dirname ∈ fsOut.dirs ∧
      fsOut.files.find? (fun p => p.1 == path_join dirname filename)
        = some (path_join dirname filename, content) := by
  rw [store_content_true_eq]
  refine ⟨_, rfl, ?_, ?_⟩
  · show dirname ∈
      (if dirname ∈ fs.dirs then fs else { fs with dirs := dirname :: fs.dirs }).dirs
    by_cases hmem : dirname ∈ fs.dirs <;> simp [hmem]
  · simp [store_write, writeFile]

/-- C10.  `log_androguard` pops the `"raw"` key in place before re-logging:
the caller's sample record comes back with `raw` gone and every other
field intact, the re-log never calls the sample builder (it enters the
private `__log_file` path directly), and the popped raw payload together
with the raw-stripped sample is what reaches the scan collaborator. -/
theorem log_androguard_pops_raw (st : LogState) (dirname : String) (sample : Sample)
    (report : Data) :
    (log_androguard st dirname sample report).1.raw = none ∧
    (log_androguard st dirname sample report).1.type = sample.type ∧
    (log_androguard st dirname sample report).1.md5 = sample.md5 ∧
    (∀ d u, Event.buildSample d u ∉ (log_androguard st dirname sample report).2.2) ∧
    Event.virusTotalAnalyze sample.raw { sample with raw := none }
      ∈ (log_androguard st dirname sample report).2.2 := by
  refine ⟨rfl, rfl, rfl, ?_, ?_⟩
  · intro d u hmem
    by_cases hjar : sample.type = "JAR" <;>
      simp [log_androguard, log_file_impl, log_analysis_module, hjar] at hmem
  · by_cases hjar : sample.type = "JAR" <;>
      simp [log_androguard, log_file_impl, log_analysis_module, hjar]

end ThugLoggingModel
